import Mathlib

/-!
Verification of the IR-burst decoder and capture path of the
Pico-Remote-Analyzer firmware.

The development shallowly embeds the reachable computation of
`decode_ir_command` (Samsung.c), the edge-capture interrupt handler
`isr_signal_trap` (Pico-Remote-Analyzer.c) and the button-recording block
at the end of `decode_ir_command`.  Machine integers are modelled as `Nat`
with explicit `% 2^w` where the C type could overflow:

* `DataBuffer` is a `UINT64`, so every shift/increment is taken `% 2^64`;
* `BitNumber` is a `UINT8`, so its value is taken `% 256`;
* `IrStepCount` and `RemoteDataTotal` are `UINT16`, so increments are
  taken `% 65536`.

The global arrays `IrResultValue` / `IrLevel` are modelled as total
functions `Nat -> Nat` (the C arrays have 500 entries; the decoder indexes
them directly, so reads past the logical event count are representable).

The local variable `Loop2UInt16` of `decode_ir_command` is read before it
is ever assigned (the statement `Loop2UInt16 - 0` in the inner for-loop is
a comparison-like no-op, not an assignment), so the function's behaviour
depends on an indeterminate initial value.  That initial value is passed
to the model explicitly as the parameter `loop2init`.

The outer for-loop of `decode_ir_command` uses a `UINT16` counter stepping
by 2; for step counts up to the buffer capacity (500) no wrap-around can
occur, and the model uses plain `Nat` steps, which coincides with the C
semantics for every count below 65535.
-/

set_option maxRecDepth 100000

/-- Number of data bits in the Samsung infrared stream (`NUMBER_OF_BITS`). -/
def NUMBER_OF_BITS : Nat := 32

/-- Expected total number of steps for this remote (`NUMBER_OF_STEPS`). -/
def NUMBER_OF_STEPS : Nat := 135

/-- Number of steps in the wake-up preamble (`NUMBER_OF_WAKEUP_STEPS`). -/
def NUMBER_OF_WAKEUP_STEPS : Nat := 2

/-- Durations above this many microseconds are separators (`SEPARATOR`). -/
def SEPARATOR : Nat := 10000

/-- Trigger point between a 0 bit and a 1 bit (`TRIGGER_POINT_0_1`). -/
def TRIGGER_POINT_0_1 : Nat := 750

/-- Capacity of the capture arrays (`MAX_IR_READINGS`). -/
def MAX_IR_READINGS : Nat := 500

/-- Number of initialized entries of `RemoteData` (`MAX_BUTTONS`). -/
def MAX_BUTTONS : Nat := 128

/-- Modulus of the `UINT64` type. -/
def UINT64_MOD : Nat := 2 ^ 64

/-- State of the locals of `decode_ir_command` while its outer for-loop runs:
`DataBuffer`, `FlagError`, the (initially indeterminate) `Loop2UInt16`,
plus the step indices at which the end-of-data message is printed and the
(event index, duration) pairs reported through `uart_send`. -/
structure IrLoopState where
  dataBuffer : Nat
  flagError : Bool
  loop2 : Nat
  sepSteps : List Nat
  anomalies : List (Nat × Nat)
deriving DecidableEq

/-- Observable result of `decode_ir_command`: the final `DataBuffer`, the
final `FlagError` and the two diagnostic streams, with the loop counter
dropped (it is a dead local at function exit). -/
structure IrDecodeResult where
  dataBuffer : Nat
  flagError : Bool
  sepSteps : List Nat
  anomalies : List (Nat × Nat)
deriving DecidableEq

/-- Body of the inner verification for-loop of `decode_ir_command`
(Samsung.c lines 108-130) for one half-bit at event index `i`: a low
level whose duration exceeds the trigger point raises `FlagError` and
logs the event; a high level shifts `DataBuffer` left once and adds 1
when the duration lies strictly between the trigger point and four times
the trigger point.  All `DataBuffer` arithmetic is `UINT64`. -/
def verifyHalf (dur lvl : Nat → Nat) (i : Nat) (st : IrLoopState) : IrLoopState :=
  if lvl i = 0 then
    if TRIGGER_POINT_0_1 < dur i then
      { st with flagError := true, anomalies := st.anomalies ++ [(i, dur i)] }
    else
      st
  else
    let db := st.dataBuffer * 2 % UINT64_MOD
    if TRIGGER_POINT_0_1 < dur i ∧ dur i < TRIGGER_POINT_0_1 * 4 then
      { st with dataBuffer := (db + 1) % UINT64_MOD }
    else
      { st with dataBuffer := db }

/-- The inner for-loop `for (Loop2UInt16 - 0; Loop2UInt16 < 2; ++Loop2UInt16)`
of `decode_ir_command` (Samsung.c line 106), unrolled.  Because the
initializer is a no-op, the loop starts from the current value of
`Loop2UInt16`: from 0 it runs both halves, from 1 only the second half,
and from 2 or more it does not run at all; after a run the counter is 2. -/
def verifyLoop (dur lvl : Nat → Nat) (s : Nat) (st : IrLoopState) : IrLoopState :=
  match st.loop2 with
  | 0 => { verifyHalf dur lvl (s + 1) (verifyHalf dur lvl s st) with loop2 := 2 }
  | 1 => { verifyHalf dur lvl (s + 1) st with loop2 := 2 }
  | _ => st

/-- One iteration of the outer for-loop of `decode_ir_command`
(Samsung.c lines 70-133) at step index `s` (always even).  A wake-up step
(`s` below `NUMBER_OF_WAKEUP_STEPS`) is skipped via `continue`.  Otherwise
`BitNumber` is computed as a `UINT8`; for bit numbers 1..32 `DataBuffer`
is shifted left and incremented when the high-half duration exceeds the
trigger point (Samsung.c lines 84-85).  Then, if either half exceeds the
separator threshold, the end-of-data message is printed for step `s` and
nothing else happens (no `break`); otherwise the inner verification loop
runs. -/
def burstStep (dur lvl : Nat → Nat) (s : Nat) (st : IrLoopState) : IrLoopState :=
  if s < NUMBER_OF_WAKEUP_STEPS then
    st
  else
    let bitNumber := ((s - NUMBER_OF_WAKEUP_STEPS) / 2 + 1) % 256
    let st1 :=
      if 0 < bitNumber ∧ bitNumber ≤ NUMBER_OF_BITS then
        let db := st.dataBuffer * 2 % UINT64_MOD
        if TRIGGER_POINT_0_1 < dur (s + 1) then
          { st with dataBuffer := (db + 1) % UINT64_MOD }
        else
          { st with dataBuffer := db }
      else
        st
    if SEPARATOR < dur s ∨ SEPARATOR < dur (s + 1) then
      { st1 with sepSteps := st1.sepSteps ++ [s] }
    else
      verifyLoop dur lvl s st1

/-- The outer for-loop of `decode_ir_command`: step index `s` starts at 0
and advances by 2 while it is below the event count. -/
def burstLoop (dur lvl : Nat → Nat) (count s : Nat) (st : IrLoopState) : IrLoopState :=
  if h : s < count then
    burstLoop dur lvl count (s + 2) (burstStep dur lvl s st)
  else
    st
termination_by count - s
decreasing_by omega

/-- Project the observable part of the loop state. -/
def stripState (st : IrLoopState) : IrDecodeResult :=
  ⟨st.dataBuffer, st.flagError, st.sepSteps, st.anomalies⟩

/-- The reachable computation of `decode_ir_command` (Samsung.c lines
44-137): `DataBuffer`, `FlagError` and the diagnostic prints as a function
of the captured durations `dur` (`IrResultValue`), levels `lvl`
(`IrLevel`), the event count (`IrStepCount`) and the indeterminate initial
value of the uninitialized local `Loop2UInt16`. -/
def decode_ir_command (dur lvl : Nat → Nat) (count loop2init : Nat) : IrDecodeResult :=
  stripState (burstLoop dur lvl count 0 ⟨0, false, loop2init, [], []⟩)

/-- Total function backed by a finite list of durations, with 0 (the value
`init_burst_variables` stores in every `IrResultValue` slot) past the end. -/
def durList (l : List Nat) : Nat → Nat :=
  fun i => l.getD i 0

/-- Levels of a well-formed burst: even indices are low (0), odd are high (1). -/
def altLevels : Nat → Nat :=
  fun i => i % 2

/-- Spec-correct Samsung encoding of the 32-bit word `x`: a 4450/4450
wake-up pair followed by one 550-low half and one high half per bit, the
high half lasting 1675 microseconds for a 1 bit and 550 for a 0 bit, most
significant bit first.  Index `2 * k + 1` (for `k = 1..32`) carries bit
`32 - k` of `x`. -/
def encodeDuration (x : Nat) : Nat → Nat :=
  fun i =>
    if i < 2 then 4450
    else if i % 2 = 0 then 550
    else if x.testBit (32 - i / 2) then 1675
    else 550

/-- Pointwise update of an array modelled as a total function. -/
def updFun (f : Nat → Nat) (i v : Nat) : Nat → Nat :=
  fun j => if j = i then v else f j

/-- Pointwise update of a string-valued array modelled as a total function. -/
def updFunS (f : Nat → String) (i : Nat) (v : String) : Nat → String :=
  fun j => if j = i then v else f j

/-- The process-wide capture state shared between `isr_signal_trap` and the
rest of the firmware: `IrStepCount` (a `UINT16`) and the four 500-entry
capture arrays, modelled as total functions so that writes at any index
are representable. -/
structure IrCaptureState where
  irStepCount : Nat
  irInitialValue : Nat → Nat
  irFinalValue : Nat → Nat
  irLevel : Nat → Nat
  irResultValue : Nat → Nat

/-- Duration stored by the interrupt handler: the `UINT64` difference of
the final and initial timer values, truncated to `UINT32`. -/
def durationOf (finalV initV : Nat) : Nat :=
  ((2 ^ 64 + finalV) - initV) % 2 ^ 64 % 2 ^ 32

/-- Rising-edge block of `isr_signal_trap` (Pico-Remote-Analyzer.c lines
778-787): unconditionally writes the final timer value, the duration and
level 0 at index `IrStepCount`, increments `IrStepCount` (a `UINT16`),
then stores the start time of the next level at the new index.  `t1` and
`t2` are the two successive `time_us_64()` readings. -/
def isrRise (t1 t2 : Nat) (st : IrCaptureState) : IrCaptureState :=
  let c := st.irStepCount
  let c2 := (c + 1) % 65536
  { irStepCount := c2
    irInitialValue := updFun st.irInitialValue c2 t2
    irFinalValue := updFun st.irFinalValue c t1
    irLevel := updFun st.irLevel c 0
    irResultValue := updFun st.irResultValue c (durationOf t1 (st.irInitialValue c)) }

/-- Falling-edge block of `isr_signal_trap` (Pico-Remote-Analyzer.c lines
791-803): when `IrStepCount` is positive it writes the final timer value,
the duration and level 1 at index `IrStepCount` and increments the count;
in every case it then stores the start time of the next low level at the
(possibly incremented) `IrStepCount`. -/
def isrFall (t1 t2 : Nat) (st : IrCaptureState) : IrCaptureState :=
  let st1 :=
    if 0 < st.irStepCount then
      let c := st.irStepCount
      { st with
        irStepCount := (c + 1) % 65536
        irFinalValue := updFun st.irFinalValue c t1
        irLevel := updFun st.irLevel c 1
        irResultValue := updFun st.irResultValue c (durationOf t1 (st.irInitialValue c)) }
    else
      st
  { st1 with irInitialValue := updFun st1.irInitialValue st1.irStepCount t2 }

/-- The edge-capture interrupt handler `isr_signal_trap`: if the interrupt
is for the IR GPIO, the rising-edge block runs when a rising edge is
flagged and the falling-edge block when a falling edge is flagged (both
may run in one invocation).  `tr1 tr2` and `tf1 tf2` are the timer
readings taken inside the respective blocks.  No index is ever compared
with `MAX_IR_READINGS`. -/
def isr_signal_trap (gpioIsIrRx riseEvent fallEvent : Bool) (tr1 tr2 tf1 tf2 : Nat)
    (st : IrCaptureState) : IrCaptureState :=
  if gpioIsIrRx then
    let st1 := if riseEvent then isrRise tr1 tr2 st else st
    if fallEvent then isrFall tf1 tf2 st1 else st1
  else
    st

/-- The confirmation test of `decode_ir_command` (Samsung.c line 144): the
string read by `input_string` confirms recording when its first character
is x or X; an empty buffer (leading NUL) does not confirm. -/
def startsWithConfirm : List Char → Bool
  | [] => false
  | c :: _ => c == 'x' || c == 'X'

/-- The `RemoteData` table (256 entries of button name and `UINT64` command
id, modelled as total functions) together with `RemoteDataTotal`
(a `UINT16`). -/
structure RemoteDataState where
  buttonNames : Nat → String
  commandIds : Nat → Nat
  remoteDataTotal : Nat

/-- The button-recording block of `decode_ir_command` (Samsung.c lines
141-149): when the user input starts with x or X, the current button name
and the final `DataBuffer` are stored at index `RemoteDataTotal` of
`RemoteData` and `RemoteDataTotal` is incremented (as a `UINT16`).  No
comparison with 256 or `MAX_BUTTONS` occurs anywhere in the block. -/
def record_button (input : List Char) (buttonName : String) (dataBuffer : Nat)
    (st : RemoteDataState) : RemoteDataState :=
  if startsWithConfirm input then
    { buttonNames := updFunS st.buttonNames st.remoteDataTotal buttonName
      commandIds := updFun st.commandIds st.remoteDataTotal dataBuffer
      remoteDataTotal := (st.remoteDataTotal + 1) % 65536 }
  else
    st

/-- A capture state as left by `init_burst_variables` except that
`IrStepCount` has already reached `n`: timer arrays zeroed and every
level slot holding 2 (the undefined marker). -/
def captureStateAt (n : Nat) : IrCaptureState :=
  ⟨n, fun _ => 0, fun _ => 0, fun _ => 2, fun _ => 0⟩

/-- A `RemoteData` table as initialized by `main` (empty names, command id
0) with `RemoteDataTotal` equal to `n`. -/
def remoteDataAt (n : Nat) : RemoteDataState :=
  ⟨fun _ => "", fun _ => 0, n⟩

theorem burstLoop_lt (dur lvl : Nat → Nat) (count s : Nat) (st : IrLoopState)
    (h : s < count) :
    burstLoop dur lvl count s st = burstLoop dur lvl count (s + 2) (burstStep dur lvl s st) := by
  rw [burstLoop]
  simp [h]

theorem burstLoop_ge (dur lvl : Nat → Nat) (count s : Nat) (st : IrLoopState)
    (h : ¬ s < count) :
    burstLoop dur lvl count s st = st := by
  rw [burstLoop]
  simp [h]

theorem burstLoop_eq_foldl_aux (dur lvl : Nat → Nat) (count : Nat) :
    ∀ fuel s st, count - s ≤ 2 * fuel →
      burstLoop dur lvl count s st =
        List.foldl (fun t i => burstStep dur lvl i t) st
          (List.range' s ((count - s + 1) / 2) 2) := by
  intro fuel
  induction fuel with
  | zero =>
    intro s st h
    have hs : ¬ s < count := by omega
    have hn : (count - s + 1) / 2 = 0 := by omega
    rw [burstLoop_ge dur lvl count s st hs, hn]
    rfl
  | succ fuel ih =>
    intro s st h
    by_cases hs : s < count
    · have hn : (count - s + 1) / 2 = (count - (s + 2) + 1) / 2 + 1 := by omega
      rw [burstLoop_lt dur lvl count s st hs, hn, List.range'_succ]
      exact ih (s + 2) (burstStep dur lvl s st) (by omega)
    · have hn : (count - s + 1) / 2 = 0 := by omega
      rw [burstLoop_ge dur lvl count s st hs, hn]
      rfl

/-- The whole decode is one bounded left-to-right pass over the even step
indices below `count`. -/
theorem decode_ir_command_fold (dur lvl : Nat → Nat) (count loop2init : Nat) :
    decode_ir_command dur lvl count loop2init =
      stripState (List.foldl (fun t i => burstStep dur lvl i t)
        ⟨0, false, loop2init, [], []⟩ (List.range' 0 ((count + 1) / 2) 2)) := by
  have h := burstLoop_eq_foldl_aux dur lvl count count 0
    ⟨0, false, loop2init, [], []⟩ (by omega)
  simp only [Nat.sub_zero] at h
  rw [decode_ir_command, h]

theorem verifyLoop_ge2 (dur lvl : Nat → Nat) (s : Nat) (st : IrLoopState)
    (h : 2 ≤ st.loop2) :
    verifyLoop dur lvl s st = st := by
  obtain ⟨db, fe, l2, sep, an⟩ := st
  have h2 : 2 ≤ l2 := h
  obtain ⟨m, rfl⟩ : ∃ m, l2 = m + 2 := ⟨l2 - 2, by omega⟩
  rfl

theorem burstStep_loop2_irrel (dur lvl : Nat → Nat) (s db : Nat) (fe : Bool)
    (l2 l2' : Nat) (sep : List Nat) (an : List (Nat × Nat))
    (h : 2 ≤ l2) (h' : 2 ≤ l2') :
    burstStep dur lvl s ⟨db, fe, l2, sep, an⟩ =
      { burstStep dur lvl s ⟨db, fe, l2', sep, an⟩ with loop2 := l2 } := by
  obtain ⟨m, rfl⟩ : ∃ m, l2 = m + 2 := ⟨l2 - 2, by omega⟩
  obtain ⟨m', rfl⟩ : ∃ m', l2' = m' + 2 := ⟨l2' - 2, by omega⟩
  simp only [burstStep, verifyLoop]
  split_ifs <;> rfl

theorem burstLoop_loop2_irrel_aux (dur lvl : Nat → Nat) (count : Nat) :
    ∀ fuel s db fe l2 l2' sep an, 2 ≤ l2 → 2 ≤ l2' → count - s ≤ 2 * fuel →
      stripState (burstLoop dur lvl count s ⟨db, fe, l2, sep, an⟩) =
        stripState (burstLoop dur lvl count s ⟨db, fe, l2', sep, an⟩) := by
  intro fuel
  induction fuel with
  | zero =>
    intro s db fe l2 l2' sep an h h' hf
    have hs : ¬ s < count := by omega
    rw [burstLoop_ge _ _ _ _ _ hs, burstLoop_ge _ _ _ _ _ hs]
    rfl
  | succ fuel ih =>
    intro s db fe l2 l2' sep an h h' hf
    by_cases hs : s < count
    · rw [burstLoop_lt dur lvl count s _ hs, burstLoop_lt dur lvl count s _ hs]
      rcases hr : burstStep dur lvl s ⟨db, fe, l2', sep, an⟩ with ⟨db2, fe2, l2x, sep2, an2⟩
      have hpres : l2x = l2' := by
        have hself := burstStep_loop2_irrel dur lvl s db fe l2' l2' sep an h' h'
        rw [hr] at hself
        exact congrArg IrLoopState.loop2 hself
      have hstep : burstStep dur lvl s ⟨db, fe, l2, sep, an⟩ = ⟨db2, fe2, l2, sep2, an2⟩ := by
        rw [burstStep_loop2_irrel dur lvl s db fe l2 l2' sep an h h', hr]
      rw [hstep, hpres]
      exact ih (s + 2) db2 fe2 l2 l2' sep2 an2 h h' (by omega)
    · rw [burstLoop_ge _ _ _ _ _ hs, burstLoop_ge _ _ _ _ _ hs]
      rfl

theorem burstStep_congr (dur dur' lvl lvl' : Nat → Nat) (s : Nat) (st : IrLoopState)
    (h0 : dur s = dur' s) (h1 : dur (s + 1) = dur' (s + 1))
    (g0 : lvl s = lvl' s) (g1 : lvl (s + 1) = lvl' (s + 1)) :
    burstStep dur lvl s st = burstStep dur' lvl' s st := by
  simp only [burstStep, verifyLoop, verifyHalf, h0, h1, g0, g1]

theorem burstLoop_congr_aux (dur dur' lvl lvl' : Nat → Nat) (count : Nat)
    (hagree : ∀ i, i < 2 * ((count + 1) / 2) → dur i = dur' i ∧ lvl i = lvl' i) :
    ∀ fuel s st, s % 2 = 0 → count - s ≤ 2 * fuel →
      burstLoop dur lvl count s st = burstLoop dur' lvl' count s st := by
  intro fuel
  induction fuel with
  | zero =>
    intro s st hev hf
    have hs : ¬ s < count := by omega
    rw [burstLoop_ge _ _ _ _ _ hs, burstLoop_ge _ _ _ _ _ hs]
  | succ fuel ih =>
    intro s st hev hf
    by_cases hs : s < count
    · have hi1 : s + 1 < 2 * ((count + 1) / 2) := by omega
      have hi0 : s < 2 * ((count + 1) / 2) := by omega
      obtain ⟨h0, g0⟩ := hagree s hi0
      obtain ⟨h1, g1⟩ := hagree (s + 1) hi1
      rw [burstLoop_lt dur lvl count s _ hs, burstLoop_lt dur' lvl' count s _ hs,
        burstStep_congr dur dur' lvl lvl' s st h0 h1 g0 g1]
      exact ih (s + 2) _ (by omega) (by omega)
    · rw [burstLoop_ge _ _ _ _ _ hs, burstLoop_ge _ _ _ _ _ hs]

theorem verifyLoop_db_ge2 (dur lvl : Nat → Nat) (s db : Nat) (fe : Bool) (m : Nat)
    (sp : List Nat) (an : List (Nat × Nat)) :
    verifyLoop dur lvl s ⟨db, fe, m + 2, sp, an⟩ = ⟨db, fe, m + 2, sp, an⟩ :=
  rfl

theorem burstStep_loop2_pres (dur lvl : Nat → Nat) (s : Nat) (st : IrLoopState)
    (hl2 : 2 ≤ st.loop2) :
    (burstStep dur lvl s st).loop2 = st.loop2 := by
  obtain ⟨db, fe, l2, sp, an⟩ := st
  have h2 : 2 ≤ l2 := hl2
  obtain ⟨m, rfl⟩ : ∃ m, l2 = m + 2 := ⟨l2 - 2, by omega⟩
  simp only [burstStep]
  split_ifs <;> rfl

theorem burstStep_db_ge2 (dur lvl : Nat → Nat) (s : Nat) (st : IrLoopState)
    (hl2 : 2 ≤ st.loop2) (h2 : NUMBER_OF_WAKEUP_STEPS ≤ s) :
    (burstStep dur lvl s st).dataBuffer =
      (if 0 < ((s - NUMBER_OF_WAKEUP_STEPS) / 2 + 1) % 256 ∧
          ((s - NUMBER_OF_WAKEUP_STEPS) / 2 + 1) % 256 ≤ NUMBER_OF_BITS then
        (st.dataBuffer * 2 + (if TRIGGER_POINT_0_1 < dur (s + 1) then 1 else 0)) % UINT64_MOD
      else
        st.dataBuffer) := by
  obtain ⟨db, fe, l2, sp, an⟩ := st
  have hl2' : 2 ≤ l2 := hl2
  obtain ⟨m, rfl⟩ : ∃ m, l2 = m + 2 := ⟨l2 - 2, by omega⟩
  have hns : ¬ s < NUMBER_OF_WAKEUP_STEPS := by omega
  simp only [burstStep, if_neg hns]
  split_ifs <;> first
    | rfl
    | (rw [verifyLoop_db_ge2]; simp [Nat.mod_add_mod])
    | simp [Nat.mod_add_mod]

theorem burstLoop_db_bound_aux (dur lvl : Nat → Nat) (count : Nat) (hc : count ≤ 500) :
    ∀ fuel s st, 2 ≤ st.loop2 → s % 2 = 0 → 2 ≤ s →
      st.dataBuffer < 2 ^ min 32 ((s - 2) / 2) → count - s ≤ 2 * fuel →
      (burstLoop dur lvl count s st).dataBuffer < 2 ^ 32 := by
  intro fuel
  induction fuel with
  | zero =>
    intro s st hl2 hev h2 hdb hf
    have hs : ¬ s < count := by omega
    rw [burstLoop_ge _ _ _ _ _ hs]
    exact lt_of_lt_of_le hdb (Nat.pow_le_pow_right (by norm_num) (by omega))
  | succ fuel ih =>
    intro s st hl2 hev h2 hdb hf
    by_cases hs : s < count
    · rw [burstLoop_lt dur lvl count s _ hs]
      have hW : NUMBER_OF_WAKEUP_STEPS = 2 := rfl
      have hB : NUMBER_OF_BITS = 32 := rfl
      have hle : s ≤ 498 := by omega
      have hbn : ((s - NUMBER_OF_WAKEUP_STEPS) / 2 + 1) % 256 = (s - 2) / 2 + 1 := by
        rw [hW]
        omega
      apply ih (s + 2)
      · rw [burstStep_loop2_pres dur lvl s st hl2]
        exact hl2
      · omega
      · omega
      · rw [burstStep_db_ge2 dur lvl s st hl2 (by omega), hbn, hB]
        by_cases hk : (s - 2) / 2 + 1 ≤ 32
        · rw [if_pos ⟨by omega, hk⟩]
          have hmin : min 32 ((s - 2) / 2) = (s - 2) / 2 := by omega
          have hmin2 : min 32 ((s + 2 - 2) / 2) = (s - 2) / 2 + 1 := by omega
          rw [hmin] at hdb
          rw [hmin2, pow_succ]
          have hmod := Nat.mod_le (st.dataBuffer * 2 +
            (if TRIGGER_POINT_0_1 < dur (s + 1) then 1 else 0)) UINT64_MOD
          have hb1 : (if TRIGGER_POINT_0_1 < dur (s + 1) then 1 else 0) ≤ 1 := by
            split_ifs <;> omega
          omega
        · rw [if_neg (by omega)]
          have hmin : min 32 ((s - 2) / 2) = 32 := by omega
          have hmin2 : min 32 ((s + 2 - 2) / 2) = 32 := by omega
          rw [hmin] at hdb
          rw [hmin2]
          exact hdb
      · omega
    · rw [burstLoop_ge _ _ _ _ _ hs]
      exact lt_of_lt_of_le hdb (Nat.pow_le_pow_right (by norm_num) (by omega))

theorem verifyHalf_inv (dur lvl : Nat → Nat) (i : Nat) (st : IrLoopState)
    (h : st.flagError = true ↔ st.anomalies ≠ []) :
    ((verifyHalf dur lvl i st).flagError = true ↔ (verifyHalf dur lvl i st).anomalies ≠ []) := by
  obtain ⟨db, fe, l2, sp, an⟩ := st
  simp only [verifyHalf]
  split_ifs <;> simp_all

theorem verifyLoop_inv (dur lvl : Nat → Nat) (s : Nat) (st : IrLoopState)
    (h : st.flagError = true ↔ st.anomalies ≠ []) :
    ((verifyLoop dur lvl s st).flagError = true ↔ (verifyLoop dur lvl s st).anomalies ≠ []) := by
  obtain ⟨db, fe, l2, sp, an⟩ := st
  rcases l2 with _ | _ | m
  · exact verifyHalf_inv dur lvl (s + 1) _ (verifyHalf_inv dur lvl s _ h)
  · exact verifyHalf_inv dur lvl (s + 1) _ h
  · exact h

theorem burstStep_inv (dur lvl : Nat → Nat) (s : Nat) (st : IrLoopState)
    (h : st.flagError = true ↔ st.anomalies ≠ []) :
    ((burstStep dur lvl s st).flagError = true ↔ (burstStep dur lvl s st).anomalies ≠ []) := by
  obtain ⟨db, fe, l2, sp, an⟩ := st
  simp only [burstStep]
  split_ifs <;> first
    | exact h
    | exact verifyLoop_inv dur lvl s _ h

theorem burstLoop_inv_aux (dur lvl : Nat → Nat) (count : Nat) :
    ∀ fuel s st, (st.flagError = true ↔ st.anomalies ≠ []) → count - s ≤ 2 * fuel →
      ((burstLoop dur lvl count s st).flagError = true ↔
        (burstLoop dur lvl count s st).anomalies ≠ []) := by
  intro fuel
  induction fuel with
  | zero =>
    intro s st h hf
    have hs : ¬ s < count := by omega
    rw [burstLoop_ge _ _ _ _ _ hs]
    exact h
  | succ fuel ih =>
    intro s st h hf
    by_cases hs : s < count
    · rw [burstLoop_lt dur lvl count s _ hs]
      exact ih (s + 2) _ (burstStep_inv dur lvl s st h) (by omega)
    · rw [burstLoop_ge _ _ _ _ _ hs]
      exact h

/-- Claim C1: the round-trip law fails on the code.  Encoding 0xE0E040BF
with spec-correct wake-up and bit pairs and decoding yields the value back
only when the indeterminate initial value of the uninitialized counter
Loop2UInt16 is at least 2; when that garbage value is 0 the residual
verification loop folds the first data bit a second time and the decoder
silently returns 0x1E0E040BF (with no error flag and no diagnostics). -/
theorem round_trip_depends_on_uninitialized_counter :
    decode_ir_command (encodeDuration 0xE0E040BF) altLevels 66 2 =
      ⟨0xE0E040BF, false, [], []⟩ ∧
    decode_ir_command (encodeDuration 0xE0E040BF) altLevels 66 0 =
      ⟨0x1E0E040BF, false, [], []⟩ := by
  constructor <;> (rw [decode_ir_command_fold]; decide)

/-- Claim C2: a pair exceeding the separator threshold is reported at the
right step but does not stop the bit loop.  In a burst whose third event
pair has a 15000 us half, the separator message is recorded at step 4, yet
the separator pair itself is folded into DataBuffer (its 15000 us high
half reads as a 1 bit) and the following pair is folded as well: the final
value is 13 = 0b1101, not the 1 = 0b1 accumulated before the separator. -/
theorem separator_reported_but_loop_continues :
    decode_ir_command (durList [4450, 4450, 550, 1675, 550, 15000, 550, 550, 550, 1675])
        altLevels 10 2 =
      ⟨13, false, [4], []⟩ := by
  rw [decode_ir_command_fold]
  decide

/-- Claim C3: the capture interrupt handler has no capacity check.  From a
state in which IrStepCount already equals MAX_IR_READINGS = 500, one more
rising edge writes the level, duration and final-timer entries at index
500 and the next start-timer entry at index 501 (both past the last valid
index 499), increments the count to 501, and no overflow indication of
any kind exists in the state. -/
theorem isr_writes_past_capacity :
    (isr_signal_trap true true false 1000 1001 0 0 (captureStateAt 500)).irStepCount = 501 ∧
    (isr_signal_trap true true false 1000 1001 0 0 (captureStateAt 500)).irLevel 500 = 0 ∧
    (isr_signal_trap true true false 1000 1001 0 0 (captureStateAt 500)).irResultValue 500 = 1000 ∧
    (isr_signal_trap true true false 1000 1001 0 0 (captureStateAt 500)).irInitialValue 501 = 1001 := by
  decide

theorem decode_differs_on_uninitialized_counter :
    decode_ir_command (durList [4450, 4450, 550, 1675]) altLevels 4 0 ≠
      decode_ir_command (durList [4450, 4450, 550, 1675]) altLevels 4 2 := by
  simp only [decode_ir_command_fold]
  decide

/-- Claim C4 (amended): decoding is a pure function of the burst buffer
and the event count only modulo the indeterminate initial value of the
uninitialized local Loop2UInt16: whenever that initial value is at least
2 in both runs (so the residual verification loop stays inert), two
decodes of the same buffer return identical results. -/
theorem decode_pure_given_live_counter (dur lvl : Nat → Nat) (count l2 l2' : Nat)
    (h : 2 ≤ l2) (h' : 2 ≤ l2') :
    decode_ir_command dur lvl count l2 = decode_ir_command dur lvl count l2' := by
  unfold decode_ir_command
  exact burstLoop_loop2_irrel_aux dur lvl count count 0 0 false l2 l2' [] [] h h' (by omega)

theorem decode_pure_given_live_counter_witness :
    2 ≤ 2 ∧ 2 ≤ 7 ∧
      decode_ir_command (durList [4450, 4450, 550, 1675]) altLevels 4 2 =
        decode_ir_command (durList [4450, 4450, 550, 1675]) altLevels 4 7 :=
  ⟨by decide, by decide,
    decode_pure_given_live_counter (durList [4450, 4450, 550, 1675]) altLevels 4 2 7
      (by decide) (by decide)⟩

theorem decode_reads_event_at_odd_count :
    (∀ i, i < 5 → durList [4450, 4450, 550, 1675, 550] i =
      durList [4450, 4450, 550, 1675, 550, 1675] i) ∧
    decode_ir_command (durList [4450, 4450, 550, 1675, 550]) altLevels 5 2 ≠
      decode_ir_command (durList [4450, 4450, 550, 1675, 550, 1675]) altLevels 5 2 := by
  constructor
  · decide
  · simp only [decode_ir_command_fold]
    decide

/-- Claim C5 (amended): the decoder reads only the events below the count
rounded up to a full pair: two buffers that agree on every index below
2 * ceil(count / 2) decode identically.  For an even count this is the
first count events; for an odd count the decoder additionally reads the
event at index count itself (the last iteration accesses step count - 1
and its pair half at index count), and no premature-termination message is
produced merely because the count falls short. -/
theorem decode_depends_only_on_rounded_prefix (dur lvl dur' lvl' : Nat → Nat)
    (count l2 : Nat)
    (h : ∀ i, i < 2 * ((count + 1) / 2) → dur i = dur' i ∧ lvl i = lvl' i) :
    decode_ir_command dur lvl count l2 = decode_ir_command dur' lvl' count l2 := by
  unfold decode_ir_command
  rw [burstLoop_congr_aux dur dur' lvl lvl' count h count 0
    ⟨0, false, l2, [], []⟩ (by omega) (by omega)]

theorem decode_depends_only_on_rounded_prefix_witness :
    (∀ i, i < 2 * ((4 + 1) / 2) → durList [4450, 4450, 550, 1675] i =
      durList [4450, 4450, 550, 1675, 99999] i ∧ altLevels i = altLevels i) ∧
    decode_ir_command (durList [4450, 4450, 550, 1675]) altLevels 4 2 =
      decode_ir_command (durList [4450, 4450, 550, 1675, 99999]) altLevels 4 2 :=
  ⟨by decide,
    decode_depends_only_on_rounded_prefix (durList [4450, 4450, 550, 1675]) altLevels
      (durList [4450, 4450, 550, 1675, 99999]) altLevels 4 2 (by decide)⟩

theorem residual_fold_adds_zero_bit_for_long_high :
    TRIGGER_POINT_0_1 < durList [4450, 4450, 550, 5000] 3 ∧
    decode_ir_command (durList [4450, 4450, 550, 5000]) altLevels 4 0 =
      ⟨2, false, [], []⟩ := by
  constructor
  · decide
  · rw [decode_ir_command_fold]
    decide

/-- Claim C6 (amended): for a data pair folded by the main fold of lines
84-85 (bit number between 1 and 32) while the residual verification loop
is inert, the new accumulator is twice the old one plus the decoded bit,
and the bit is 1 exactly when the high-half duration at step + 1 strictly
exceeds TRIGGER_POINT_0_1: the high half alone decides, and a duration
exactly equal to the trigger point contributes a 0 bit.  (When the
uninitialized counter starts below 2, the residual loop folds the affected
pair once more under the different rule 750 < d < 3000.) -/
theorem bit_decision_strict_on_high_half (dur lvl : Nat → Nat) (s : Nat) (st : IrLoopState)
    (hl2 : 2 ≤ st.loop2) (hs : NUMBER_OF_WAKEUP_STEPS ≤ s)
    (hbn : 0 < ((s - NUMBER_OF_WAKEUP_STEPS) / 2 + 1) % 256 ∧
      ((s - NUMBER_OF_WAKEUP_STEPS) / 2 + 1) % 256 ≤ NUMBER_OF_BITS) :
    (burstStep dur lvl s st).dataBuffer =
      (st.dataBuffer * 2 + (if TRIGGER_POINT_0_1 < dur (s + 1) then 1 else 0)) % UINT64_MOD ∧
    (dur (s + 1) = TRIGGER_POINT_0_1 →
      (burstStep dur lvl s st).dataBuffer = st.dataBuffer * 2 % UINT64_MOD) := by
  constructor
  · rw [burstStep_db_ge2 dur lvl s st hl2 hs, if_pos hbn]
  · intro hEq
    rw [burstStep_db_ge2 dur lvl s st hl2 hs, if_pos hbn, hEq, if_neg (lt_irrefl _)]
    simp

theorem bit_decision_strict_on_high_half_witness :
    2 ≤ (⟨5, false, 2, [], []⟩ : IrLoopState).loop2 ∧
    NUMBER_OF_WAKEUP_STEPS ≤ 2 ∧
    (0 < ((2 - NUMBER_OF_WAKEUP_STEPS) / 2 + 1) % 256 ∧
      ((2 - NUMBER_OF_WAKEUP_STEPS) / 2 + 1) % 256 ≤ NUMBER_OF_BITS) ∧
    ((burstStep (durList [4450, 4450, 550, 750]) altLevels 2
        ⟨5, false, 2, [], []⟩).dataBuffer =
      ((⟨5, false, 2, [], []⟩ : IrLoopState).dataBuffer * 2 +
        (if TRIGGER_POINT_0_1 < durList [4450, 4450, 550, 750] 3 then 1 else 0)) % UINT64_MOD ∧
     (durList [4450, 4450, 550, 750] 3 = TRIGGER_POINT_0_1 →
      (burstStep (durList [4450, 4450, 550, 750]) altLevels 2
          ⟨5, false, 2, [], []⟩).dataBuffer =
        (⟨5, false, 2, [], []⟩ : IrLoopState).dataBuffer * 2 % UINT64_MOD)) :=
  ⟨by decide, by decide, by decide,
    bit_decision_strict_on_high_half (durList [4450, 4450, 550, 750]) altLevels 2
      ⟨5, false, 2, [], []⟩ (by decide) (by decide) (by decide)⟩

theorem decoded_value_can_exceed_32_bits :
    ¬ (decode_ir_command (encodeDuration 0xE0E040BF) altLevels 66 0).dataBuffer < 2 ^ 32 := by
  rw [decode_ir_command_fold]
  decide

/-- Claim C7 (amended): when the uninitialized counter starts at 2 or more
(residual verification loop inert) and the event count is within the
capture capacity, the guard on BitNumber allows at most 32 shifts of the
accumulator, so the decoded value always fits in 32 bits. -/
theorem decoded_value_lt_2_pow_32_of_live_counter (dur lvl : Nat → Nat) (count l2 : Nat)
    (hl2 : 2 ≤ l2) (hc : count ≤ MAX_IR_READINGS) :
    (decode_ir_command dur lvl count l2).dataBuffer < 2 ^ 32 := by
  have hc' : count ≤ 500 := hc
  unfold decode_ir_command
  by_cases h0 : 0 < count
  · rw [burstLoop_lt dur lvl count 0 _ h0]
    have hstep : burstStep dur lvl 0 ⟨0, false, l2, [], []⟩ = ⟨0, false, l2, [], []⟩ := rfl
    rw [hstep]
    exact burstLoop_db_bound_aux dur lvl count hc' count 2 ⟨0, false, l2, [], []⟩ hl2
      (by omega) (by omega) (by simp) (by omega)
  · rw [burstLoop_ge dur lvl count 0 _ (by omega)]
    show (0 : Nat) < 2 ^ 32
    norm_num

theorem decoded_value_lt_2_pow_32_of_live_counter_witness :
    2 ≤ 2 ∧ 4 ≤ MAX_IR_READINGS ∧
      (decode_ir_command (durList [4450, 4450, 550, 1675]) altLevels 4 2).dataBuffer < 2 ^ 32 :=
  ⟨by decide, by decide,
    decoded_value_lt_2_pow_32_of_live_counter (durList [4450, 4450, 550, 1675]) altLevels 4 2
      (by decide) (by decide)⟩

theorem short_count_produces_no_diagnostics :
    (4 ≠ NUMBER_OF_STEPS) ∧
    decode_ir_command (durList [4450, 4450, 550, 1675]) altLevels 4 2 = ⟨1, false, [], []⟩ := by
  constructor
  · decide
  · rw [decode_ir_command_fold]
    decide

/-- Claim C8 (amended): the decoder performs no post-loop validity or
step-count computation: no step-count diagnostic exists anywhere in its
output, and the only error indicator, FlagError, is raised exactly when at
least one low-half anomaly record was emitted during the loop. -/
theorem flag_error_iff_anomaly_recorded (dur lvl : Nat → Nat) (count l2 : Nat) :
    ((decode_ir_command dur lvl count l2).flagError = true ↔
      (decode_ir_command dur lvl count l2).anomalies ≠ []) := by
  unfold decode_ir_command
  exact burstLoop_inv_aux dur lvl count count 0 ⟨0, false, l2, [], []⟩ (by simp) (by omega)

/-- Claim C9: for any event count within the capture capacity the decoder
is a bounded single-pass scan: the outer loop, whose step index rises by 2
per iteration until it reaches the count, equals one left fold over the
finite list of even step indices below the count, hence it always
terminates after ceil(count / 2) iterations. -/
theorem decode_single_bounded_pass (dur lvl : Nat → Nat) (count l2 : Nat)
    (hc : count ≤ MAX_IR_READINGS) :
    decode_ir_command dur lvl count l2 =
      stripState (List.foldl (fun t i => burstStep dur lvl i t)
        ⟨0, false, l2, [], []⟩ (List.range' 0 ((count + 1) / 2) 2)) :=
  decode_ir_command_fold dur lvl count l2

theorem decode_single_bounded_pass_witness :
    6 ≤ MAX_IR_READINGS ∧
      decode_ir_command (durList [4450, 4450, 550, 1675, 550, 550]) altLevels 6 0 =
        stripState (List.foldl
          (fun t i => burstStep (durList [4450, 4450, 550, 1675, 550, 550]) altLevels i t)
          ⟨0, false, 0, [], []⟩ (List.range' 0 ((6 + 1) / 2) 2)) :=
  ⟨by decide,
    decode_single_bounded_pass (durList [4450, 4450, 550, 1675, 550, 550]) altLevels 6 0
      (by decide)⟩

theorem remote_data_total_wraps_at_uint16_max :
    ¬ ((remoteDataAt 65535).remoteDataTotal <
      (record_button ['x'] "Power" 5 (remoteDataAt 65535)).remoteDataTotal) := by
  decide

/-- Claim C10 (amended): when the input string starts with x or X, the
recording block stores the button name and the decoded value at index
RemoteDataTotal of RemoteData and increments RemoteDataTotal as a UINT16,
for every current value of RemoteDataTotal - no comparison against the
table size 256 or MAX_BUTTONS guards the write - and the count strictly
increases whenever it has not yet reached the UINT16 maximum 65535. -/
theorem record_button_unchecked_append (input : List Char) (buttonName : String)
    (dataBuffer : Nat) (st : RemoteDataState)
    (h : startsWithConfirm input = true) :
    (record_button input buttonName dataBuffer st).remoteDataTotal =
      (st.remoteDataTotal + 1) % 65536 ∧
    (record_button input buttonName dataBuffer st).commandIds st.remoteDataTotal =
      dataBuffer ∧
    (record_button input buttonName dataBuffer st).buttonNames st.remoteDataTotal =
      buttonName ∧
    (st.remoteDataTotal < 65535 →
      st.remoteDataTotal < (record_button input buttonName dataBuffer st).remoteDataTotal) := by
  unfold record_button
  rw [if_pos h]
  refine ⟨rfl, ?_, ?_, ?_⟩
  · unfold updFun
    simp
  · unfold updFunS
    simp
  · intro hlt
    show st.remoteDataTotal < (st.remoteDataTotal + 1) % 65536
    omega

theorem record_button_unchecked_append_witness :
    startsWithConfirm ['x'] = true ∧
    ((record_button ['x'] "Power" 3772793023 (remoteDataAt 300)).remoteDataTotal =
        ((remoteDataAt 300).remoteDataTotal + 1) % 65536 ∧
      (record_button ['x'] "Power" 3772793023 (remoteDataAt 300)).commandIds
        (remoteDataAt 300).remoteDataTotal = 3772793023 ∧
      (record_button ['x'] "Power" 3772793023 (remoteDataAt 300)).buttonNames
        (remoteDataAt 300).remoteDataTotal = "Power" ∧
      ((remoteDataAt 300).remoteDataTotal < 65535 →
        (remoteDataAt 300).remoteDataTotal <
          (record_button ['x'] "Power" 3772793023 (remoteDataAt 300)).remoteDataTotal)) :=
  ⟨by decide,
    record_button_unchecked_append ['x'] "Power" 3772793023 (remoteDataAt 300) (by decide)⟩
